import Mathlib

/- Shallow embedding of the trending-finder Trend Retrieval and Ranking Engine
   (TrendsService, PlatformFactory and the platform adapters).

   Modeling conventions:
   - JS strings are modeled as lists of characters (type Str below), so that
     length, substring(0, n) and concatenation are List.length, List.take and
     List.append.
   - JS numbers are modeled as rationals; Date values are their millisecond
     timestamps (Date.getTime), also rationals.
   - A value that may be undefined at runtime is an Option.
   - An async call that may reject is a function returning an Option, none
     standing for the raised error.
   - Database state is an explicit list of rows threaded through functions. -/

abbrev Str := List Char

/- p.toLowerCase() on the char list underlying the string. -/
def strLower (s : String) : String := String.mk (s.data.map Char.toLower)

inductive Platform
  | reddit
  | youtube
  | twitter
deriving DecidableEq

/- The runtime string value of a Platform member (the TS Platform type is a
   union of these string literals). -/
def platformName : Platform → String
  | .reddit => "reddit"
  | .youtube => "youtube"
  | .twitter => "twitter"

/- PostMetrics from post.model.ts: every counter is optional. -/
structure PostMetrics where
  likes : Option ℚ := none
  retweets : Option ℚ := none
  replies : Option ℚ := none
  views : Option ℚ := none
  upvotes : Option ℚ := none
  comments : Option ℚ := none
deriving DecidableEq

/- Object.values(metrics) in declaration order. -/
def metricValues (m : PostMetrics) : List (Option ℚ) :=
  [m.likes, m.retweets, m.replies, m.views, m.upvotes, m.comments]

/- Post from post.model.ts. momentumScore is declared as number but the code
   guards every read with a typeof check, so it is an Option here. -/
structure Post where
  id : Str
  platformId : Str
  platform : Platform
  author : Str
  content : Str
  title : Option Str
  metrics : PostMetrics
  link : Str
  thumbnail : Option Str
  publishedAt : ℚ
  createdAt : ℚ
  momentumScore : Option ℚ
deriving DecidableEq

structure SearchOptions where
  keyword : Str
  platforms : List String
  timeframe : String
  lang : Option Str := none
  region : Option Str := none
  limit : Option Nat := none
deriving DecidableEq

structure SearchResult where
  keyword : Str
  platforms : List String
  results : List Post
  totalResults : Nat
  searchTime : ℚ
deriving DecidableEq

/- A row of the posts table (db/schema.ts). momentum_score is a NOT NULL real
   column, hence not an Option; embedding is nullable. -/
structure StoredPost where
  id : Str
  platformId : Str
  platform : Platform
  author : Str
  content : Str
  title : Option Str
  metrics : PostMetrics
  link : Str
  thumbnail : Option Str
  publishedAt : ℚ
  createdAt : ℚ
  updatedAt : ℚ
  momentumScore : ℚ
  embedding : Option (List ℚ)
deriving DecidableEq

/- JS truthiness of an optional string: undefined and the empty string are
   falsy. -/
def jsTruthyStr : Option Str → Bool
  | some s => !s.isEmpty
  | none => false

/- Array.from(new Set(l)): duplicates dropped, first occurrence kept. -/
def dedupFirstGo [DecidableEq α] (seen : List α) : List α → List α
  | [] => []
  | x :: xs => if x ∈ seen then dedupFirstGo seen xs else x :: dedupFirstGo (x :: seen) xs

def dedupFirst [DecidableEq α] (l : List α) : List α := dedupFirstGo [] l

/- Stable sorting, modeling Array.prototype.sort with a numeric comparator
   (stable per the ECMAScript spec): x is placed before the first element it
   strictly precedes, so equal elements keep their input order. -/
def insertBy (before : α → α → Bool) (x : α) : List α → List α
  | [] => [x]
  | y :: ys => if before x y then x :: y :: ys else y :: insertBy before x ys

def stableSortBy (before : α → α → Bool) (l : List α) : List α :=
  l.foldl (fun acc x => insertBy before x acc) []

/- Comparator (a, b) => b.momentumScore - a.momentumScore: descending by
   score. On the paths where it runs, every momentumScore is a number; getD 0
   only discharges the Option. -/
def byMomentumDesc (a b : Post) : Bool :=
  decide (b.momentumScore.getD 0 < a.momentumScore.getD 0)

/- TrendsService.calculateMomentumScore: engagement divided by hours since
   publication, clamped below by 0.0001, rounded to 2 decimals.
   Math.round is round-half-toward-plus-infinity, which is Mathlib round. -/
def engagementReduce (m : PostMetrics) : ℚ :=
  (metricValues m).foldl (fun acc v => acc + v.getD 0) 0

def calculateMomentumScore (now : ℚ) (post : Post) : ℚ :=
  let hours : ℚ := max (1 / 10000) ((now - post.publishedAt) / 3600000)
  let engagement := engagementReduce post.metrics
  ((round (engagement / hours * 100) : ℤ) : ℚ) / 100

/- Spec-side restatement of the scorer, following the words of the spec. -/
def specEngagement (m : PostMetrics) : ℚ :=
  ((metricValues m).map (fun v => v.getD 0)).sum

def specHoursSinceOrigin (now publishedAt : ℚ) : ℚ :=
  max (1 / 10000) ((now - publishedAt) / 3600000)

def specRoundTo2 (x : ℚ) : ℚ := ((round (x * 100) : ℤ) : ℚ) / 100

/- TrendsService.getTimeframeCutoff. -/
def getTimeframeCutoff (now : ℚ) (timeframe : String) : Option ℚ :=
  if timeframe == "1h" then some (now - 3600000)
  else if timeframe == "24h" then some (now - 86400000)
  else if timeframe == "7d" then some (now - 604800000)
  else if timeframe == "30d" then some (now - 2592000000)
  else if timeframe == "1y" then some (now - 31536000000)
  else none

/- TrendsService.truncateText: falsy input gives null; short text unchanged;
   long text cut at maxLength with a trailing marker. -/
def truncateText (text : Option Str) (maxLength : Nat) : Option Str :=
  match text with
  | none => none
  | some t =>
    if t.isEmpty then none
    else if t.length ≤ maxLength then some t
    else some (t.take maxLength ++ "...".data)

/- TrendsService.normalizeAndTruncatePost. -/
def normalizeAndTruncatePost (post : Post) : Post :=
  { post with
    content := (truncateText (some post.content) 600).getD []
    title := truncateText post.title 200 }

/- The inline enrichment p => typeof p.momentumScore === number ? p : withScore. -/
def withMomentum (now : ℚ) (p : Post) : Post :=
  match p.momentumScore with
  | some _ => p
  | none => { p with momentumScore := some (calculateMomentumScore now p) }

/- TrendsService.applyFiltersAndSort: timeframe filter, platform filter,
   fill in missing scores, sort descending by momentum. No result limit is
   applied here. -/
def applyFiltersAndSort (now : ℚ) (list : List Post) (options : SearchOptions) : List Post :=
  let cutoff := getTimeframeCutoff now options.timeframe
  let byTime := match cutoff with
    | some c => list.filter (fun (p : Post) => decide (c ≤ p.publishedAt))
    | none => list
  let byPlatform := byTime.filter
    (fun (p : Post) => options.platforms.contains (platformName p.platform))
  let enriched := byPlatform.map (withMomentum now)
  stableSortBy byMomentumDesc enriched

/- TrendsService.toSearchResult: every returned post is normalized and
   truncated. -/
def toSearchResult (now : ℚ) (options : SearchOptions) (posts : List Post) : SearchResult :=
  let normalizedPosts := posts.map normalizeAndTruncatePost
  { keyword := options.keyword
    platforms := options.platforms
    results := normalizedPosts
    totalResults := normalizedPosts.length
    searchTime := now }

/- Platform adapter configuration (interfaces/platform.service.ts). -/
structure PlatformConfig where
  apiKey : Option Str := none
  clientId : Option Str := none
  clientSecret : Option Str := none
  userAgent : Option Str := none
deriving DecidableEq

/- RedditService.isAvailable: !!(clientId && clientSecret). -/
def redditIsAvailable (config : PlatformConfig) : Bool :=
  jsTruthyStr config.clientId && jsTruthyStr config.clientSecret

/- YouTubeService.isAvailable: !!apiKey. -/
def youtubeIsAvailable (config : PlatformConfig) : Bool :=
  jsTruthyStr config.apiKey

/- XService.isAvailable: returns true unconditionally (falls back to mock
   data). -/
def xIsAvailable (_config : PlatformConfig) : Bool := true

/- XService constructor: useMockData = !config.apiKey. -/
def xUseMockData (config : PlatformConfig) : Bool := !jsTruthyStr config.apiKey

/- One registered platform adapter as the factory sees it: its availability
   flag and its searchTrends call; a none result models a rejected promise. -/
structure Adapter where
  available : Bool
  search : Str → SearchOptions → Option (List Post)

/- PlatformFactory.getAvailablePlatforms: the keys of the services map, in
   registration order; registration is unconditional, so this is constant. -/
def getAvailablePlatforms : List String := ["reddit", "youtube", "twitter", "x"]

/- The alias table inside TrendsService.validatePlatforms. -/
def aliasMap (p : String) : Option String :=
  if p == "x" then some "twitter"
  else if p == "twitter" then some "twitter"
  else if p == "reddit" then some "reddit"
  else if p == "youtube" then some "youtube"
  else none

/- TrendsService.validatePlatforms. -/
def validatePlatforms (input : List String) : List String :=
  let available := getAvailablePlatforms
  let norm := input.filterMap (fun p => aliasMap (strLower p))
  let unique := (dedupFirst norm).filter (fun p => available.contains p)
  if unique.isEmpty then available else unique

/- Whether PlatformFactory.searchTrendsAcrossPlatforms issues a call for a
   requested platform: only when the adapter exists and reports available. -/
def isAttempted (services : String → Option Adapter) (p : String) : Bool :=
  match services p with
  | some s => s.available
  | none => false

/- The value the factory Map ends up holding for one requested platform:
   unavailable or missing adapters map to [], a rejected call is caught and
   replaced by []. -/
def fanOutValue (services : String → Option Adapter) (keyword : Str)
    (options : SearchOptions) (p : String) : List Post :=
  match services p with
  | some s => if s.available then (s.search keyword options).getD [] else []
  | none => []

/- PlatformFactory.searchTrendsAcrossPlatforms, as the final entry list of the
   results Map in iteration order: keys for unavailable platforms are set
   synchronously first, keys for attempted platforms are set when their
   settled promise is read. A duplicate request only re-sets the same value,
   so Map insertion order is first occurrence within each phase. -/
def searchTrendsAcrossPlatforms (services : String → Option Adapter) (keyword : Str)
    (platforms : List String) (options : SearchOptions) : List (String × List Post) :=
  let uniq := dedupFirst platforms
  (uniq.filter (fun p => !(isAttempted services p))).map (fun p => (p, []))
    ++ (uniq.filter (fun p => isAttempted services p)).map
        (fun p => (p, fanOutValue services keyword options p))

/- Map.prototype.get on the entry list. -/
def mapGet (entries : List (String × List Post)) (key : String) : Option (List Post) :=
  (entries.find? (fun e => e.1 == key)).map (fun e => e.2)

/- The platforms for which an adapter call is actually issued (one promise per
   occurrence in the requested list). -/
def attemptedCalls (services : String → Option Adapter) (platforms : List String) : List String :=
  platforms.filter (fun p => isAttempted services p)

/- XService.getMockData: options.limit || 50 (0 is falsy). -/
def mockLimit : Option Nat → Nat
  | none => 50
  | some 0 => 50
  | some k => k

/- The five hard-coded mock tweets, with their keyword splices and their
   publication offsets from Date.now(). Each hard-coded alphanumeric id is
   kept without the Date.now() suffix, which never flows anywhere. -/
def mockTweet1 (now : ℚ) (keyword : Str) : Post :=
  { id := "mock_1".data, platformId := "123456789".data, platform := .twitter
    author := "tech_enthusiast".data
    content := "Just discovered amazing ".data ++ keyword
      ++ " trends! The momentum is incredible right now. #".data
      ++ keyword.filter (fun c => !c.isWhitespace) ++ " #trending".data
    title := none
    metrics := { likes := some 1250, retweets := some 89, replies := some 45 }
    link := "https://twitter.com/tech_enthusiast/status/123456789".data
    thumbnail := none
    publishedAt := now - 7200000, createdAt := now - 7200000
    momentumScore := some 692 }

def mockTweet2 (now : ℚ) (keyword : Str) : Post :=
  { id := "mock_2".data, platformId := "123456790".data, platform := .twitter
    author := "innovation_hub".data
    content := keyword
      ++ " is revolutionizing the industry. Here is why you should pay attention to this trend.".data
    title := none
    metrics := { likes := some 890, retweets := some 67, replies := some 23 }
    link := "https://twitter.com/innovation_hub/status/123456790".data
    thumbnail := none
    publishedAt := now - 14400000, createdAt := now - 14400000
    momentumScore := some 245 }

def mockTweet3 (now : ℚ) (keyword : Str) : Post :=
  { id := "mock_3".data, platformId := "123456791".data, platform := .twitter
    author := "future_insights".data
    content := "Breaking: ".data ++ keyword
      ++ " has reached critical mass. This is the perfect time to get involved!".data
    title := none
    metrics := { likes := some 2100, retweets := some 156, replies := some 78 }
    link := "https://twitter.com/future_insights/status/123456791".data
    thumbnail := none
    publishedAt := now - 3600000, createdAt := now - 3600000
    momentumScore := some 1167 }

def mockTweet4 (now : ℚ) (keyword : Str) : Post :=
  { id := "mock_4".data, platformId := "123456792".data, platform := .twitter
    author := "trend_analyst".data
    content := "Analysis: ".data ++ keyword
      ++ " shows 300% growth in the last 24 hours. The data does not lie!".data
    title := none
    metrics := { likes := some 567, retweets := some 34, replies := some 12 }
    link := "https://twitter.com/trend_analyst/status/123456792".data
    thumbnail := none
    publishedAt := now - 21600000, createdAt := now - 21600000
    momentumScore := some 102 }

def mockTweet5 (now : ℚ) (keyword : Str) : Post :=
  { id := "mock_5".data, platformId := "123456793".data, platform := .twitter
    author := "digital_nomad".data
    content := "Just tried the new ".data ++ keyword
      ++ " approach and WOW! Game changer for content creators.".data
    title := none
    metrics := { likes := some 432, retweets := some 28, replies := some 19 }
    link := "https://twitter.com/digital_nomad/status/123456793".data
    thumbnail := none
    publishedAt := now - 10800000, createdAt := now - 10800000
    momentumScore := some 160 }

def mockTweets (now : ℚ) (keyword : Str) : List Post :=
  [ mockTweet1 now keyword, mockTweet2 now keyword, mockTweet3 now keyword,
    mockTweet4 now keyword, mockTweet5 now keyword ]

/- The timeframe switch inside getMockData. -/
def mockTimeframeKeeps (now : ℚ) (timeframe : String) (t : Post) : Bool :=
  let hoursSinceCreation := (now - t.createdAt) / 3600000
  if timeframe == "1h" then decide (hoursSinceCreation ≤ 1)
  else if timeframe == "24h" then decide (hoursSinceCreation ≤ 24)
  else if timeframe == "7d" then decide (hoursSinceCreation ≤ 24 * 7)
  else if timeframe == "30d" then decide (hoursSinceCreation ≤ 24 * 30)
  else true

def getMockData (now : ℚ) (keyword : Str) (options : SearchOptions) : List Post :=
  ((mockTweets now keyword).filter (mockTimeframeKeeps now options.timeframe)).take
    (mockLimit options.limit)

/- XService.searchTrends. The api argument is the normalized outcome of the
   live HTTP call (external network input): some posts on success, none for a
   thrown error, in which case the catch block falls back to mock data. -/
def xSearchTrends (config : PlatformConfig) (api : Option (List Post)) (now : ℚ)
    (keyword : Str) (options : SearchOptions) : List Post :=
  if xUseMockData config then getMockData now keyword options
  else
    match api with
    | some posts => stableSortBy byMomentumDesc posts
    | none => getMockData now keyword options

/- content ILIKE pattern and title ILIKE pattern: case-insensitive substring
   match (ILIKE metacharacters inside the keyword are not modeled). -/
def containsCI (hay needle : Str) : Bool :=
  ((hay.map Char.toLower).tails).any (fun t => (needle.map Char.toLower).isPrefixOf t)

def textMatch (keyword : Str) (r : StoredPost) : Bool :=
  containsCI r.content keyword
    || (match r.title with
        | some t => containsCI t keyword
        | none => false)

/- Row mapping in searchPostsByText: platform_id is selected, so the
   temp fallback fires only for an empty platform_id; content and title are
   truncated here. -/
def rowToPostText (r : StoredPost) : Post :=
  { id := r.id
    platformId := if r.platformId.isEmpty then "temp_".data ++ r.id else r.platformId
    platform := r.platform
    author := r.author
    content := (truncateText (some r.content) 600).getD []
    title := truncateText r.title 200
    metrics := r.metrics
    link := r.link
    thumbnail := r.thumbnail
    publishedAt := r.publishedAt
    createdAt := r.createdAt
    momentumScore := some r.momentumScore }

/- TrendsService.searchPostsByText: ILIKE match, ORDER BY momentum_score
   DESC, LIMIT limit, then the row mapping. -/
def searchPostsByText (store : List StoredPost) (keyword : Str) (limit : Nat) : List Post :=
  ((stableSortBy (fun a b => decide (b.momentumScore < a.momentumScore))
      (store.filter (textMatch keyword))).take limit).map rowToPostText

/- Squared euclidean distance; ORDER BY embedding <-> q sorts by euclidean
   distance, and sorting by the squared distance gives the same order. -/
def l2sq (a b : List ℚ) : ℚ :=
  (List.zipWith (fun x y => (x - y) * (x - y)) a b).foldl (fun acc z => acc + z) 0

/- The candidate query in searchTrendsInDatabase: rows with an embedding,
   nearest first, LIMIT rows. -/
def vectorCandidates (store : List StoredPost) (queryEmbedding : List ℚ) (limit : Nat) :
    List StoredPost :=
  (stableSortBy
      (fun a b => decide (l2sq (a.embedding.getD []) queryEmbedding
        < l2sq (b.embedding.getD []) queryEmbedding))
      (store.filter (fun r => r.embedding.isSome))).take limit

/- Row mapping of the vector candidates: this SELECT omits platform_id, so
   the temp fallback always fires; no truncation happens on this path. The
   typeof momentum_score guard never takes its else branch because the column
   is NOT NULL. -/
def rowToPostVec (r : StoredPost) : Post :=
  { id := r.id
    platformId := "temp_".data ++ r.id
    platform := r.platform
    author := r.author
    content := r.content
    title := r.title
    metrics := r.metrics
    link := r.link
    thumbnail := r.thumbnail
    publishedAt := r.publishedAt
    createdAt := r.createdAt
    momentumScore := some r.momentumScore }

/- The environment a search runs in: the clock, the embedding provider (none
   models a failed generateEmbedding), the posts table, and the platform
   adapter map. -/
structure Env where
  now : ℚ
  embed : Str → Option (List ℚ)
  store : List StoredPost
  services : String → Option Adapter

/- TrendsService.searchTrendsInDatabase. The Bool records whether the lexical
   (ILIKE) fallback query was executed. -/
def searchTrendsInDatabase (env : Env) (options : SearchOptions) :
    Option SearchResult × Bool :=
  match env.embed options.keyword with
  | none =>
    let textPosts := searchPostsByText env.store options.keyword (options.limit.getD 50)
    let filtered := applyFiltersAndSort env.now textPosts options
    (if filtered.isEmpty then none else some (toSearchResult env.now options filtered), true)
  | some queryEmbedding =>
    let rows := vectorCandidates env.store queryEmbedding (options.limit.getD 100)
    let vecPosts := rows.map rowToPostVec
    let filtered := applyFiltersAndSort env.now vecPosts options
    (if filtered.isEmpty then none else some (toSearchResult env.now options filtered), false)

def validatedOptions (options : SearchOptions) : SearchOptions :=
  { options with platforms := validatePlatforms options.platforms }

/- The flattening loop over the factory results Map. -/
def liveAll (env : Env) (platforms : List String) (options : SearchOptions) : List Post :=
  ((searchTrendsAcrossPlatforms env.services options.keyword platforms options).map
    (fun e => e.2)).flatten

/- TrendsService.searchTrends. The returned Bool again records whether a
   lexical store query ran. The fire-and-forget saveSearchToDatabase call has
   no effect on the returned value and is modeled separately. On the live
   path toSearchResult receives the original options (raw platform tokens),
   while filtering uses the validated ones, exactly as in the source. -/
def searchTrends (env : Env) (options : SearchOptions) : SearchResult × Bool :=
  let platforms := validatePlatforms options.platforms
  match searchTrendsInDatabase env (validatedOptions options) with
  | (some r, lex) => (r, lex)
  | (none, lex) =>
    let all := liveAll env platforms options
    let enriched := all.map (withMomentum env.now)
    let filtered := applyFiltersAndSort env.now enriched (validatedOptions options)
    (toSearchResult env.now options filtered, lex)

/- The session-local dedup key: platform first as in the template string
   platform:platformId; the string key is injective in the pair because the
   platform names contain no colon. -/
def postKey (p : Post) : Platform × Str := (p.platform, p.platformId)

/- The filter with the seenPlatformIds set: first occurrence of each key
   wins. -/
def dedupByKeyGo (seen : List (Platform × Str)) : List Post → List Post
  | [] => []
  | p :: ps =>
    if postKey p ∈ seen then dedupByKeyGo seen ps
    else p :: dedupByKeyGo (postKey p :: seen) ps

def sessionDedup (l : List Post) : List Post := dedupByKeyGo [] l

/- PostCreate from post.model.ts (the fields saveSearchToDatabase builds). -/
structure PostCreate where
  platformId : Str
  platform : Platform
  author : Str
  content : Str
  title : Option Str
  metrics : PostMetrics
  link : Str
  thumbnail : Option Str
  publishedAt : ℚ
  createdAt : ℚ
  momentumScore : Option ℚ
deriving DecidableEq

/- Step 2 of saveSearchToDatabase: normalize the post and build the
   PostCreate payload. createdAt is a required field of Post, so the
   normalized.createdAt ?? new Date() fallback is the identity here. -/
def pcOf (now : ℚ) (p : Post) : PostCreate :=
  let normalized := normalizeAndTruncatePost p
  { platformId := normalized.platformId
    platform := normalized.platform
    author := normalized.author
    content := normalized.content
    title := normalized.title
    metrics := normalized.metrics
    link := normalized.link
    thumbnail := normalized.thumbnail
    publishedAt := normalized.publishedAt
    createdAt := normalized.createdAt
    momentumScore := some (match normalized.momentumScore with
      | some m => m
      | none => calculateMomentumScore now normalized) }

/- TrendsService.checkPostExists: any row with the same (platform_id,
   platform). -/
def checkPostExists (store : List StoredPost) (platformId : Str) (platform : Platform) : Bool :=
  store.any (fun r => r.platformId == platformId && r.platform == platform)

/- [pc.title, pc.content].filter(Boolean).join(space). -/
def textForEmbedding (pc : PostCreate) : Str :=
  List.intercalate " ".data
    (([pc.title, some pc.content].filterMap id).filter (fun s => !s.isEmpty))

/- The auxiliary Post literal saveSearchToDatabase builds around a PostCreate
   (its id is the literal temp and the score slot is ignored by the
   scorer). -/
def auxPost (pc : PostCreate) (score : ℚ) : Post :=
  { id := "temp".data
    platformId := pc.platformId
    platform := pc.platform
    author := pc.author
    content := pc.content
    title := pc.title
    metrics := pc.metrics
    link := pc.link
    thumbnail := pc.thumbnail
    publishedAt := pc.publishedAt
    createdAt := pc.createdAt
    momentumScore := some score }

def finalMomentum (now : ℚ) (pc : PostCreate) : ℚ :=
  match pc.momentumScore with
  | some m => m
  | none => calculateMomentumScore now (auxPost pc 0)

/- The row handed to db.insert(posts).values(...): content and title are
   normalized a second time, metrics and the rest come from the PostCreate.
   id and updatedAt are database defaults on insert, modeled as the empty id
   and the insertion clock. -/
def buildRow (now : ℚ) (item : PostCreate × Option (List ℚ)) : StoredPost :=
  let pc := item.1
  let score := finalMomentum now pc
  let normalizedPost := normalizeAndTruncatePost (auxPost pc score)
  { id := []
    platformId := pc.platformId
    platform := pc.platform
    author := pc.author
    content := normalizedPost.content
    title := normalizedPost.title
    metrics := pc.metrics
    link := pc.link
    thumbnail := pc.thumbnail
    publishedAt := pc.publishedAt
    createdAt := pc.createdAt
    updatedAt := now
    momentumScore := score
    embedding := item.2 }

def keyMatches (row r : StoredPost) : Bool :=
  r.platformId == row.platformId && r.platform == row.platform

/- The set clause of onConflictDoUpdate: only metrics, momentumScore,
   embedding and updatedAt. -/
def conflictUpdate (now : ℚ) (row r : StoredPost) : StoredPost :=
  { r with
    metrics := row.metrics
    momentumScore := row.momentumScore
    embedding := row.embedding
    updatedAt := now }

/- db.insert(posts).values(row).onConflictDoUpdate on the natural key
   (platform_id, platform): the unique index guarantees at most one
   conflicting row; the model applies the update to every key match, which
   coincides on stores satisfying the index. -/
def upsertPost (now : ℚ) (store : List StoredPost) (row : StoredPost) : List StoredPost :=
  if checkPostExists store row.platformId row.platform then
    store.map (fun r => if keyMatches row r then conflictUpdate now row r else r)
  else store ++ [row]

/- Steps 2 and 3 of saveSearchToDatabase: session dedup, PostCreate build,
   existence check (existing keys are skipped), embedding generation. -/
def newItems (env : Env) (store : List StoredPost) (result : SearchResult) :
    List (PostCreate × Option (List ℚ)) :=
  (((sessionDedup result.results).map (pcOf env.now)).filter
      (fun pc => !(checkPostExists store pc.platformId pc.platform))).map
    (fun pc => (pc, env.embed (textForEmbedding pc)))

def upsertRows (env : Env) (store : List StoredPost) (result : SearchResult) :
    List StoredPost :=
  (newItems env store result).map (buildRow env.now)

/- TrendsService.saveSearchToDatabase, as a function from the posts table to
   the posts table. The trends-table insert carries the options and does not
   touch posts, so the options are unused here. -/
def saveSearchToDatabase (env : Env) (_options : SearchOptions) (result : SearchResult)
    (store : List StoredPost) : List StoredPost :=
  (upsertRows env store result).foldl (upsertPost env.now) store

/- Membership in the normalized intersection the spec describes for INIT:
   a canonical token reached from some input token through the
   case-insensitive alias table, and available in the registry. -/
def normalizedIntersectionMem (input : List String) (t : String) : Prop :=
  (∃ s ∈ input, aliasMap (strLower s) = some t) ∧ t ∈ getAvailablePlatforms

/- ===== Concrete inputs used by witnesses and counterexamples below.
   They use the timeframe all and carry precomputed momentum scores, so no
   rational arithmetic is needed to evaluate them. ===== -/

def wRowLex : StoredPost :=
  { id := "r1".data, platformId := "p1".data, platform := .twitter
    author := "u".data, content := "ai news".data, title := none
    metrics := { likes := some 5 }, link := "l".data, thumbnail := none
    publishedAt := 0, createdAt := 0, updatedAt := 0
    momentumScore := 5, embedding := none }

def wOptsLex : SearchOptions :=
  { keyword := "ai".data, platforms := ["twitter"], timeframe := "all", limit := none }

def wEnvLex : Env :=
  { now := 0, embed := fun _ => none, store := [wRowLex], services := fun _ => none }

def wResLex : SearchResult :=
  (searchTrendsInDatabase wEnvLex wOptsLex).1.getD (toSearchResult 0 wOptsLex [])

def wRowVec : StoredPost :=
  { id := "r2".data, platformId := "p2".data, platform := .twitter
    author := "u".data, content := "ai news".data, title := none
    metrics := { likes := some 5 }, link := "l".data, thumbnail := none
    publishedAt := 0, createdAt := 0, updatedAt := 0
    momentumScore := 5, embedding := some [1] }

def wEnvVec : Env :=
  { now := 0, embed := fun _ => some [1], store := [wRowVec], services := fun _ => none }

def wResVec : SearchResult :=
  (searchTrendsInDatabase wEnvVec wOptsLex).1.getD (toSearchResult 0 wOptsLex [])

def wEnvLive : Env :=
  { now := 0, embed := fun _ => some [1], store := [], services := fun _ => none }

def cPostHi : Post :=
  { id := "h".data, platformId := "h1".data, platform := .twitter
    author := "a".data, content := "x".data, title := none
    metrics := { likes := some 2 }, link := "l".data, thumbnail := none
    publishedAt := 0, createdAt := 0, momentumScore := some 2 }

def cPostLo : Post :=
  { id := "w".data, platformId := "w1".data, platform := .twitter
    author := "a".data, content := "y".data, title := none
    metrics := { likes := some 1 }, link := "l".data, thumbnail := none
    publishedAt := 0, createdAt := 0, momentumScore := some 1 }

def cEnvLive : Env :=
  { now := 0, embed := fun _ => some [1], store := []
    services := fun p =>
      if p == "twitter" then some { available := true, search := fun _ _ => some [cPostHi, cPostLo] }
      else none }

def cOptsLive : SearchOptions :=
  { keyword := "k".data, platforms := ["twitter"], timeframe := "all", limit := some 1 }

def c2Row : StoredPost :=
  { id := "r".data, platformId := "1".data, platform := .twitter
    author := "origAuthor".data, content := "origContent".data, title := some "origTitle".data
    metrics := { likes := some 5 }, link := "l".data, thumbnail := none
    publishedAt := 0, createdAt := 0, updatedAt := 0
    momentumScore := 1, embedding := none }

def c2Item : Post :=
  { id := "i".data, platformId := "1".data, platform := .twitter
    author := "newAuthor".data, content := "newContent".data, title := some "newTitle".data
    metrics := { likes := some 7 }, link := "l".data, thumbnail := none
    publishedAt := 0, createdAt := 0, momentumScore := some 9 }

def c2Result : SearchResult :=
  { keyword := "k".data, platforms := ["twitter"], results := [c2Item]
    totalResults := 1, searchTime := 0 }

def c2Opts : SearchOptions :=
  { keyword := "k".data, platforms := ["twitter"], timeframe := "all", limit := none }

def c2Env : Env :=
  { now := 0, embed := fun _ => none, store := [c2Row], services := fun _ => none }

def c2FreshRow : StoredPost :=
  { id := [], platformId := "9".data, platform := .reddit
    author := "a".data, content := "c".data, title := none
    metrics := {}, link := "l".data, thumbnail := none
    publishedAt := 0, createdAt := 0, updatedAt := 7
    momentumScore := 3, embedding := none }

def noCredsConfig : PlatformConfig := {}

def c6Now : ℚ := 36000000000

def c6PostA : Post :=
  { id := "a".data, platformId := "a1".data, platform := .twitter
    author := "a".data, content := "a".data, title := none
    metrics := {}, link := "l".data, thumbnail := none
    publishedAt := 0, createdAt := 0, momentumScore := none }

def c6PostB : Post :=
  { id := "b".data, platformId := "b1".data, platform := .twitter
    author := "b".data, content := "b".data, title := none
    metrics := { likes := some 1 }, link := "l".data, thumbnail := none
    publishedAt := 0, createdAt := 0, momentumScore := none }

def c5Post : Post :=
  { id := "p".data, platformId := "p1".data, platform := .reddit
    author := "a".data, content := "c".data, title := none
    metrics := { upvotes := some 10, comments := some 3 }, link := "l".data, thumbnail := none
    publishedAt := 0, createdAt := 0, momentumScore := none }

def wSvc : String → Option Adapter := fun p =>
  if p == "reddit" then some { available := false, search := fun _ _ => some [] }
  else if p == "twitter" then some { available := true, search := fun _ _ => none }
  else none

def wSvcTwitterAdapter : Adapter := { available := true, search := fun _ _ => none }

def wFanOutOpts : SearchOptions :=
  { keyword := "k".data, platforms := ["reddit", "twitter"], timeframe := "all", limit := none }

def c10Post : Post :=
  { id := "t".data, platformId := "t1".data, platform := .youtube
    author := "a".data, content := "short".data, title := some []
    metrics := {}, link := "l".data, thumbnail := none
    publishedAt := 0, createdAt := 0, momentumScore := some 1 }

def w10Post : Post :=
  { id := "t".data, platformId := "t2".data, platform := .youtube
    author := "a".data, content := "short".data, title := some "t".data
    metrics := {}, link := "l".data, thumbnail := none
    publishedAt := 0, createdAt := 0, momentumScore := some 1 }

def w10LongPost : Post :=
  { id := "t".data, platformId := "t3".data, platform := .youtube
    author := "a".data, content := List.replicate 601 'a', title := some (List.replicate 201 'b')
    metrics := {}, link := "l".data, thumbnail := none
    publishedAt := 0, createdAt := 0, momentumScore := some 1 }

def wEnvC8 : Env :=
  { now := 0, embed := fun _ => some [1], store := [], services := fun _ => none }

def wOptsC8 : SearchOptions :=
  { keyword := "ai".data, platforms := [], timeframe := "all", limit := none }

def wC9Opts : SearchOptions :=
  { keyword := "k".data, platforms := [], timeframe := "all", limit := none }

/- ===== Lemma toolbox ===== -/

theorem engagementReduce_eq_spec (m : PostMetrics) :
    engagementReduce m = specEngagement m := by
  simp [engagementReduce, specEngagement, metricValues]
  ring

theorem roundMono {x y : ℚ} (h : x ≤ y) : round x ≤ round y := by
  rw [round_eq, round_eq]
  exact Int.floor_mono (by linarith)

theorem hoursPos (e q : ℚ) (he : 0 < e) : 0 < max e q := lt_of_lt_of_le he (le_max_left e q)

theorem length_insertBy (before : α → α → Bool) (x : α) (l : List α) :
    (insertBy before x l).length = l.length + 1 := by
  induction l with
  | nil => rfl
  | cons y ys ih =>
    by_cases h : before x y = true
    · simp [insertBy, h]
    · simp [insertBy, h, ih]

theorem length_stableSortBy_aux (before : α → α → Bool) (l acc : List α) :
    (l.foldl (fun acc x => insertBy before x acc) acc).length = acc.length + l.length := by
  induction l generalizing acc with
  | nil => simp
  | cons x xs ih => simp [List.foldl_cons, ih, length_insertBy]; omega

theorem length_stableSortBy (before : α → α → Bool) (l : List α) :
    (stableSortBy before l).length = l.length := by
  simpa using length_stableSortBy_aux before l []

theorem length_applyFiltersAndSort_le (now : ℚ) (list : List Post) (options : SearchOptions) :
    (applyFiltersAndSort now list options).length ≤ list.length := by
  unfold applyFiltersAndSort
  rw [length_stableSortBy, List.length_map]
  rcases h : getTimeframeCutoff now options.timeframe with _ | c
  · simp only [h]
    exact List.length_filter_le _ _
  · simp only [h]
    exact le_trans (List.length_filter_le _ _) (List.length_filter_le _ _)

theorem length_searchPostsByText_le (store : List StoredPost) (keyword : Str) (limit : Nat) :
    (searchPostsByText store keyword limit).length ≤ limit := by
  unfold searchPostsByText
  rw [List.length_map]
  exact List.length_take_le _ _

theorem length_vectorCandidates_le (store : List StoredPost) (q : List ℚ) (limit : Nat) :
    (vectorCandidates store q limit).length ≤ limit := by
  unfold vectorCandidates
  exact List.length_take_le _ _

theorem length_toSearchResult (now : ℚ) (options : SearchOptions) (posts : List Post) :
    (toSearchResult now options posts).results.length = posts.length := by
  simp [toSearchResult]

/- ===== C3 ===== -/

/-- C3 counterexample: the twitter adapter constructed with no credentials at
all still reports itself available (and is in mock-data mode), contradicting
the claim that isAvailable is true only when credentials are present. -/
theorem xService_available_without_credentials :
    noCredsConfig.apiKey = none ∧ xIsAvailable noCredsConfig = true
      ∧ xUseMockData noCredsConfig = true :=
  ⟨rfl, rfl, rfl⟩

/-- C3 (amended): reddit and youtube report available exactly when their
credentials are present and nonempty, but the twitter adapter reports
available unconditionally, falling back to mock data without a token. -/
theorem isAvailable_characterization (config : PlatformConfig) :
    (redditIsAvailable config = true
        ↔ (jsTruthyStr config.clientId = true ∧ jsTruthyStr config.clientSecret = true))
      ∧ (youtubeIsAvailable config = true ↔ jsTruthyStr config.apiKey = true)
      ∧ xIsAvailable config = true := by
  refine ⟨?_, Iff.rfl, rfl⟩
  simp [redditIsAvailable]

/- ===== C5 ===== -/

/-- C5: the default momentum score is the sum of the metric values (missing
values counted as 0) divided by the clamped hours since publication, rounded
to 2 decimals, and it is a function of (publishedAt, metrics, evaluation
time) only. -/
theorem momentumScore_spec (t : ℚ) (p : Post) :
    calculateMomentumScore t p
        = specRoundTo2 (specEngagement p.metrics / specHoursSinceOrigin t p.publishedAt)
      ∧ (∀ q : Post, p.publishedAt = q.publishedAt → p.metrics = q.metrics →
          calculateMomentumScore t p = calculateMomentumScore t q) := by
  constructor
  · unfold calculateMomentumScore specRoundTo2 specHoursSinceOrigin
    rw [engagementReduce_eq_spec]
  · intro q h1 h2
    unfold calculateMomentumScore
    rw [h1, h2]

/-- C5 witness: the spec formula and determinism instantiated at a concrete
post and instant. -/
theorem momentumScore_spec_witness :
    calculateMomentumScore 0 c5Post
        = specRoundTo2 (specEngagement c5Post.metrics / specHoursSinceOrigin 0 c5Post.publishedAt)
      ∧ calculateMomentumScore 0 c5Post = calculateMomentumScore 0 c5Post :=
  ⟨(momentumScore_spec 0 c5Post).1, (momentumScore_spec 0 c5Post).2 c5Post rfl rfl⟩

/- ===== C6 ===== -/

/-- C6 counterexample: at 10000 hours of age, engagement 1 and engagement 0
both round to a momentum score of 0, so strictly higher engagement at equal
age does not give a strictly higher score. -/
theorem momentum_not_strictly_monotonic :
    c6PostA.publishedAt = c6PostB.publishedAt
      ∧ specEngagement c6PostA.metrics < specEngagement c6PostB.metrics
      ∧ ¬ (calculateMomentumScore c6Now c6PostA < calculateMomentumScore c6Now c6PostB) := by
  refine ⟨rfl, by norm_num [specEngagement, metricValues, c6PostA, c6PostB], ?_⟩
  have hA : calculateMomentumScore c6Now c6PostA = 0 := by
    unfold calculateMomentumScore c6Now c6PostA
    norm_num [engagementReduce, metricValues, round_eq]
  have hB : calculateMomentumScore c6Now c6PostB = 0 := by
    unfold calculateMomentumScore c6Now c6PostB
    norm_num [engagementReduce, metricValues]
  rw [hA, hB]
  exact lt_irrefl 0

/-- C6 (amended): at equal age, higher engagement gives a higher or equal
score (strictness can be lost to the 2-decimal rounding); at equal
non-negative engagement, an older publication gives a lower or equal
score. -/
theorem momentum_monotonicity (t : ℚ) (pA pB : Post) :
    (pA.publishedAt = pB.publishedAt →
        specEngagement pA.metrics ≤ specEngagement pB.metrics →
        calculateMomentumScore t pA ≤ calculateMomentumScore t pB)
      ∧ (specEngagement pA.metrics = specEngagement pB.metrics →
        0 ≤ specEngagement pA.metrics →
        pA.publishedAt ≤ pB.publishedAt →
        calculateMomentumScore t pA ≤ calculateMomentumScore t pB) := by
  constructor
  · intro hpub heng
    unfold calculateMomentumScore
    rw [hpub, engagementReduce_eq_spec, engagementReduce_eq_spec]
    have hden : (0:ℚ) < max (1 / 10000) ((t - pB.publishedAt) / 3600000) :=
      hoursPos _ _ (by norm_num)
    have hx : specEngagement pA.metrics / max (1 / 10000) ((t - pB.publishedAt) / 3600000) * 100
        ≤ specEngagement pB.metrics / max (1 / 10000) ((t - pB.publishedAt) / 3600000) * 100 := by
      gcongr
    have := roundMono hx
    have h100 : (0:ℚ) < 100 := by norm_num
    exact div_le_div_of_nonneg_right (by exact_mod_cast this) (by norm_num)
  · intro heng hnn hpub
    unfold calculateMomentumScore
    rw [engagementReduce_eq_spec, engagementReduce_eq_spec, ← heng]
    have hA : (0:ℚ) < max (1 / 10000) ((t - pA.publishedAt) / 3600000) :=
      hoursPos _ _ (by norm_num)
    have hB : (0:ℚ) < max (1 / 10000) ((t - pB.publishedAt) / 3600000) :=
      hoursPos _ _ (by norm_num)
    have hhrs : max (1 / 10000) ((t - pB.publishedAt) / 3600000)
        ≤ max (1 / 10000) ((t - pA.publishedAt) / 3600000) := by
      apply max_le_max (le_refl _)
      apply div_le_div_of_nonneg_right _ (by norm_num)
      linarith
    have hx : specEngagement pA.metrics / max (1 / 10000) ((t - pA.publishedAt) / 3600000) * 100
        ≤ specEngagement pA.metrics / max (1 / 10000) ((t - pB.publishedAt) / 3600000) * 100 := by
      gcongr
    have := roundMono hx
    exact div_le_div_of_nonneg_right (by exact_mod_cast this) (by norm_num)

/-- C6 witness: the amended monotonicity at concrete posts, discharging both
sets of hypotheses. -/
theorem momentum_monotonicity_witness :
    calculateMomentumScore c6Now c6PostA ≤ calculateMomentumScore c6Now c6PostB
      ∧ calculateMomentumScore c6Now c6PostA ≤ calculateMomentumScore c6Now c6PostA :=
  ⟨(momentum_monotonicity c6Now c6PostA c6PostB).1 rfl
      (by norm_num [specEngagement, metricValues, c6PostA, c6PostB]),
    (momentum_monotonicity c6Now c6PostA c6PostA).2 rfl
      (by norm_num [specEngagement, metricValues, c6PostA]) (le_refl _)⟩

/- ===== C7 ===== -/

theorem mem_dedupFirstGo [DecidableEq α] (x : α) :
    ∀ (l seen : List α), x ∈ dedupFirstGo seen l ↔ x ∈ l ∧ x ∉ seen := by
  intro l
  induction l with
  | nil => intro seen; simp [dedupFirstGo]
  | cons y ys ih =>
    intro seen
    by_cases hy : y ∈ seen
    · rw [dedupFirstGo, if_pos hy, ih]
      constructor
      · rintro ⟨hmem, hns⟩
        exact ⟨List.mem_cons_of_mem _ hmem, hns⟩
      · rintro ⟨hmem, hns⟩
        rcases List.mem_cons.mp hmem with rfl | h
        · exact absurd hy hns
        · exact ⟨h, hns⟩
    · rw [dedupFirstGo, if_neg hy]
      constructor
      · intro h
        rcases List.mem_cons.mp h with rfl | h2
        · exact ⟨List.mem_cons_self _ _, hy⟩
        · have := (ih (y :: seen)).mp h2
          refine ⟨List.mem_cons_of_mem _ this.1, fun hc => this.2 (List.mem_cons_of_mem _ hc)⟩
      · rintro ⟨hmem, hns⟩
        rcases List.mem_cons.mp hmem with rfl | h2
        · exact List.mem_cons_self _ _
        · by_cases hxy : x = y
          · subst hxy; exact List.mem_cons_self _ _
          · exact List.mem_cons_of_mem _ ((ih (y :: seen)).mpr
              ⟨h2, fun hc => (List.mem_cons.mp hc).elim hxy hns⟩)

theorem nodup_dedupFirstGo [DecidableEq α] :
    ∀ (l seen : List α), (dedupFirstGo seen l).Nodup := by
  intro l
  induction l with
  | nil => intro seen; simp [dedupFirstGo]
  | cons y ys ih =>
    intro seen
    by_cases hy : y ∈ seen
    · rw [dedupFirstGo, if_pos hy]; exact ih seen
    · rw [dedupFirstGo, if_neg hy]
      refine List.nodup_cons.mpr ⟨?_, ih (y :: seen)⟩
      intro hc
      exact ((mem_dedupFirstGo y ys (y :: seen)).mp hc).2 (List.mem_cons_self _ _)

theorem mem_dedupFirst [DecidableEq α] (x : α) (l : List α) :
    x ∈ dedupFirst l ↔ x ∈ l := by
  rw [dedupFirst, mem_dedupFirstGo]
  simp

theorem mem_validatePlatforms_core (input : List String) (t : String) :
    (t ∈ (dedupFirst (input.filterMap (fun p => aliasMap (strLower p)))).filter
        (fun p => getAvailablePlatforms.contains p))
      ↔ normalizedIntersectionMem input t := by
  rw [List.mem_filter, mem_dedupFirst, List.mem_filterMap, normalizedIntersectionMem]
  simp [List.elem_iff]

/-- C7: validatePlatforms maps tokens case-insensitively through the alias
table, drops unrecognized tokens and duplicates, intersects with the
registry keys, and falls back to all registry keys when the intersection is
empty; it never raises. -/
theorem validatePlatforms_spec (input : List String) :
    ((∃ t, normalizedIntersectionMem input t) →
        ∀ t, t ∈ validatePlatforms input ↔ normalizedIntersectionMem input t)
      ∧ ((¬ ∃ t, normalizedIntersectionMem input t) →
        validatePlatforms input = getAvailablePlatforms)
      ∧ (validatePlatforms input).Nodup := by
  have hmem := mem_validatePlatforms_core input
  constructor
  · intro ⟨t0, ht0⟩ t
    have hne : ¬ ((dedupFirst (input.filterMap (fun p => aliasMap (strLower p)))).filter
        (fun p => getAvailablePlatforms.contains p)).isEmpty = true := by
      rw [List.isEmpty_iff, List.eq_nil_iff_forall_not_mem]
      intro hall
      exact (hall t0) ((hmem t0).mpr ht0)
    rw [validatePlatforms]
    simp only [hne, if_false, Bool.false_eq_true]
    exact hmem t
  · constructor
    · intro hno
      have he : ((dedupFirst (input.filterMap (fun p => aliasMap (strLower p)))).filter
          (fun p => getAvailablePlatforms.contains p)).isEmpty = true := by
        rw [List.isEmpty_iff, List.eq_nil_iff_forall_not_mem]
        intro t ht
        exact hno ⟨t, (hmem t).mp ht⟩
      rw [validatePlatforms]
      simp only [he, if_true]
    · rw [validatePlatforms]
      by_cases he : ((dedupFirst (input.filterMap (fun p => aliasMap (strLower p)))).filter
          (fun p => getAvailablePlatforms.contains p)).isEmpty = true
      · simp only [he, if_true]
        decide
      · simp only [he, if_false, Bool.false_eq_true]
        exact (nodup_dedupFirstGo _ []).filter _

/-- C7 witness: a request with an alias, a case difference, a duplicate and
an unknown token normalizes to the twitter and reddit keys; an empty request
falls back to all registry keys. -/
theorem validatePlatforms_spec_witness :
    ("twitter" ∈ validatePlatforms ["X", "reddit", "x", "tiktok"]
        ↔ normalizedIntersectionMem ["X", "reddit", "x", "tiktok"] "twitter")
      ∧ validatePlatforms [] = getAvailablePlatforms :=
  ⟨(validatePlatforms_spec ["X", "reddit", "x", "tiktok"]).1
      ⟨"twitter", ⟨"X", by decide, by decide⟩, by decide⟩ "twitter",
    (validatePlatforms_spec []).2.1 (by rintro ⟨t, ⟨s, hs, _⟩, _⟩; exact (List.not_mem_nil s) hs)⟩

/- ===== C9 ===== -/

theorem mock3_keeps (now : ℚ) (tf : String) (keyword : Str) :
    mockTimeframeKeeps now tf (mockTweet3 now keyword) = true := by
  simp only [mockTimeframeKeeps, mockTweet3]
  have h : (now - (now - 3600000)) / 3600000 = (1:ℚ) := by
    rw [sub_sub_cancel]; norm_num
  split_ifs <;> simp only [decide_eq_true_eq, h] <;> norm_num

theorem mockTweets_platform (now : ℚ) (keyword : Str) :
    ∀ p ∈ mockTweets now keyword, p.platform = Platform.twitter := by
  intro p hp
  simp only [mockTweets, List.mem_cons, List.not_mem_nil, or_false] at hp
  rcases hp with rfl | rfl | rfl | rfl | rfl <;> rfl

theorem mockLimit_pos (o : Option Nat) : 1 ≤ mockLimit o := by
  rcases o with _ | k
  · simp [mockLimit]
  · rcases k with _ | k
    · simp [mockLimit]
    · simp [mockLimit]

/-- C9: constructed without a bearer token, the twitter adapter serves mock
data: the result equals getMockData, is never empty, holds at most five
items, respects the limit (after the falsy-zero default of 50), and every
item is a twitter post passing the requested timeframe filter. -/
theorem xService_mock_mode (cid cs ua : Option Str) (api : Option (List Post)) (now : ℚ)
    (keyword : Str) (options : SearchOptions) :
    xSearchTrends { apiKey := none, clientId := cid, clientSecret := cs, userAgent := ua }
        api now keyword options = getMockData now keyword options
      ∧ 1 ≤ (getMockData now keyword options).length
      ∧ (getMockData now keyword options).length ≤ 5
      ∧ (getMockData now keyword options).length ≤ mockLimit options.limit
      ∧ (∀ p ∈ getMockData now keyword options,
          p.platform = Platform.twitter
            ∧ mockTimeframeKeeps now options.timeframe p = true) := by
  refine ⟨?_, ?_, ?_, ?_, ?_⟩
  · simp [xSearchTrends, xUseMockData, jsTruthyStr]
  · have hmem : mockTweet3 now keyword
        ∈ (mockTweets now keyword).filter (mockTimeframeKeeps now options.timeframe) :=
      List.mem_filter.mpr ⟨by simp [mockTweets], mock3_keeps now options.timeframe keyword⟩
    have hpos : 0 < ((mockTweets now keyword).filter
        (mockTimeframeKeeps now options.timeframe)).length :=
      List.length_pos.mpr (List.ne_nil_of_mem hmem)
    rw [getMockData, List.length_take]
    exact le_min (mockLimit_pos options.limit) hpos
  · rw [getMockData, List.length_take]
    refine le_trans (min_le_right _ _) (le_trans (List.length_filter_le _ _) ?_)
    simp [mockTweets]
  · rw [getMockData, List.length_take]
    exact min_le_left _ _
  · intro p hp
    rw [getMockData] at hp
    have hp2 := List.mem_of_mem_take hp
    have := List.mem_filter.mp hp2
    exact ⟨mockTweets_platform now keyword p this.1, this.2⟩

/- ===== C4 ===== -/

theorem find_map_keyed (ps : List String) (f : String → List Post) (p : String)
    (hp : p ∈ ps) :
    ((ps.map (fun q => (q, f q))).find? (fun e => e.1 == p)) = some (p, f p) := by
  induction ps with
  | nil => cases hp
  | cons q qs ih =>
    rcases List.mem_cons.mp hp with rfl | h
    · simp [List.find?]
    · by_cases hq : (q == p) = true
      · have : q = p := by simpa using hq
        subst this
        simp [List.find?]
      · simp only [List.map_cons, List.find?, hq]
        exact ih h

theorem find_none_keys (l : List (String × List Post)) (p : String)
    (h : ∀ e ∈ l, e.1 ≠ p) : l.find? (fun e => e.1 == p) = none :=
  List.find?_eq_none.mpr (fun x hx => by simpa using h x hx)

theorem fanOutValue_not_attempted (services : String → Option Adapter) (keyword : Str)
    (options : SearchOptions) (p : String) (h : isAttempted services p = false) :
    fanOutValue services keyword options p = [] := by
  rcases hs : services p with _ | s
  · simp [fanOutValue, hs]
  · have h2 : s.available = false := by
      unfold isAttempted at h
      rw [hs] at h
      exact h
    simp [fanOutValue, hs, h2]

/-- C4: the fan-out result has an entry for every requested platform holding
exactly that platform value: an unavailable or unregistered platform maps to
an empty list with no call attempted, a requested adapter whose call rejects
maps to an empty list, and the entry for a platform depends only on that
platform adapter, so siblings are unaffected; the aggregate is a total
function and never throws. -/
theorem fanOut_isolation (services : String → Option Adapter) (keyword : Str)
    (platforms : List String) (options : SearchOptions) (p : String)
    (hp : p ∈ platforms) :
    mapGet (searchTrendsAcrossPlatforms services keyword platforms options) p
        = some (fanOutValue services keyword options p)
      ∧ (isAttempted services p = false →
        mapGet (searchTrendsAcrossPlatforms services keyword platforms options) p = some []
          ∧ p ∉ attemptedCalls services platforms)
      ∧ (∀ s, services p = some s → s.available = true → s.search keyword options = none →
        mapGet (searchTrendsAcrossPlatforms services keyword platforms options) p = some []) := by
  have hpu : p ∈ dedupFirst platforms := (mem_dedupFirst p platforms).mpr hp
  have hmain : mapGet (searchTrendsAcrossPlatforms services keyword platforms options) p
      = some (fanOutValue services keyword options p) := by
    unfold mapGet searchTrendsAcrossPlatforms
    rcases hatt : isAttempted services p with _ | _
    · have hpf : p ∈ (dedupFirst platforms).filter (fun q => !(isAttempted services q)) :=
        List.mem_filter.mpr ⟨hpu, by simp [hatt]⟩
      rw [List.find?_append, find_map_keyed _ (fun _ => ([] : List Post)) p hpf]
      simp [fanOutValue_not_attempted services keyword options p hatt]
    · have hnone : (((dedupFirst platforms).filter
          (fun q => !(isAttempted services q))).map (fun q => (q, ([] : List Post)))).find?
            (fun e => e.1 == p) = none := by
        apply find_none_keys
        intro e he
        rcases List.mem_map.mp he with ⟨q, hq, rfl⟩
        have hqa := (List.mem_filter.mp hq).2
        show q ≠ p
        rintro rfl
        rw [hatt] at hqa
        simp at hqa
      have hpf : p ∈ (dedupFirst platforms).filter (fun q => isAttempted services q) :=
        List.mem_filter.mpr ⟨hpu, hatt⟩
      rw [List.find?_append, hnone, Option.none_or,
        find_map_keyed _ (fanOutValue services keyword options) p hpf]
      rfl
  refine ⟨hmain, ?_, ?_⟩
  · intro hattf
    refine ⟨by rw [hmain, fanOutValue_not_attempted services keyword options p hattf], ?_⟩
    intro hc
    have := (List.mem_filter.mp hc).2
    rw [hattf] at this
    simp at this
  · intro s hs havail hsearch
    rw [hmain]
    unfold fanOutValue
    rw [hs]
    simp [havail, hsearch]

/-- C4 witness: with a registered unavailable reddit adapter and an available
twitter adapter whose call rejects, both requested platforms map to an empty
list, reddit without any attempted call. -/
theorem fanOut_isolation_witness :
    mapGet (searchTrendsAcrossPlatforms wSvc "k".data ["reddit", "twitter"] wFanOutOpts) "twitter"
        = some (fanOutValue wSvc "k".data wFanOutOpts "twitter")
      ∧ mapGet (searchTrendsAcrossPlatforms wSvc "k".data ["reddit", "twitter"] wFanOutOpts)
          "reddit" = some []
      ∧ "reddit" ∉ attemptedCalls wSvc ["reddit", "twitter"]
      ∧ mapGet (searchTrendsAcrossPlatforms wSvc "k".data ["reddit", "twitter"] wFanOutOpts)
          "twitter" = some [] := by
  have h1 := fanOut_isolation wSvc "k".data ["reddit", "twitter"] wFanOutOpts "twitter"
    (by simp)
  have h2 := fanOut_isolation wSvc "k".data ["reddit", "twitter"] wFanOutOpts "reddit"
    (by simp)
  have h2r := h2.2.1 (by rfl)
  exact ⟨h1.1, h2r.1, h2r.2, h1.2.2 wSvcTwitterAdapter rfl rfl rfl⟩

/- ===== C1 ===== -/

/-- C1 counterexample: on the live-fetch path with a requested limit of 1 and
two qualifying fetched posts, the returned results list has length 2: no
result limit is applied. -/
theorem limit_not_applied_on_live_path :
    cOptsLive.limit = some 1
      ∧ 1 < (searchTrends cEnvLive cOptsLive).1.results.length := by
  exact ⟨rfl, by decide⟩

/-- C1 (amended): the lexical fallback path returns at most limit (default
50) results and the vector path at most limit (default 100, not 50, when
absent), because the SQL LIMIT caps the candidates; the live platform fetch
path applies no limit at all: its results are exactly the normalized
filtered fetched posts, however many there are. -/
theorem result_limit_by_path (env : Env) (options : SearchOptions) :
    (∀ r, env.embed options.keyword = none →
      (searchTrendsInDatabase env options).1 = some r →
      r.results.length ≤ options.limit.getD 50)
      ∧ (∀ r v, env.embed options.keyword = some v →
        (searchTrendsInDatabase env options).1 = some r →
        r.results.length ≤ options.limit.getD 100)
      ∧ ((searchTrendsInDatabase env (validatedOptions options)).1 = none →
        (searchTrends env options).1.results =
          (applyFiltersAndSort env.now
            ((liveAll env (validatePlatforms options.platforms) options).map
              (withMomentum env.now))
            (validatedOptions options)).map normalizeAndTruncatePost) := by
  refine ⟨?_, ?_, ?_⟩
  · intro r he hsome
    simp only [searchTrendsInDatabase, he] at hsome
    by_cases hemp : (applyFiltersAndSort env.now
        (searchPostsByText env.store options.keyword (options.limit.getD 50))
        options).isEmpty = true
    · simp [hemp] at hsome
    · simp only [hemp, if_false, Bool.false_eq_true, Option.some_inj] at hsome
      rw [← hsome, length_toSearchResult]
      exact le_trans (length_applyFiltersAndSort_le _ _ _)
        (length_searchPostsByText_le _ _ _)
  · intro r v hv hsome
    simp only [searchTrendsInDatabase, hv] at hsome
    by_cases hemp : (applyFiltersAndSort env.now
        ((vectorCandidates env.store v (options.limit.getD 100)).map rowToPostVec)
        options).isEmpty = true
    · simp [hemp] at hsome
    · simp only [hemp, if_false, Bool.false_eq_true, Option.some_inj] at hsome
      rw [← hsome, length_toSearchResult]
      refine le_trans (length_applyFiltersAndSort_le _ _ _) ?_
      rw [List.length_map]
      exact length_vectorCandidates_le _ _ _
  · intro h
    rcases hdb : searchTrendsInDatabase env (validatedOptions options) with ⟨o, lex⟩
    rw [hdb] at h
    simp only at h
    subst h
    simp only [searchTrends, hdb]
    simp [toSearchResult]

/-- C1 witness: the bounds and the live-path characterization at concrete
stores and environments, with every hypothesis discharged by evaluation. -/
theorem result_limit_by_path_witness :
    wResLex.results.length ≤ wOptsLex.limit.getD 50
      ∧ wResVec.results.length ≤ wOptsLex.limit.getD 100
      ∧ (searchTrends wEnvLive wOptsLex).1.results =
          (applyFiltersAndSort wEnvLive.now
            ((liveAll wEnvLive (validatePlatforms wOptsLex.platforms) wOptsLex).map
              (withMomentum wEnvLive.now))
            (validatedOptions wOptsLex)).map normalizeAndTruncatePost :=
  ⟨(result_limit_by_path wEnvLex wOptsLex).1 wResLex rfl (by decide),
    (result_limit_by_path wEnvVec wOptsLex).2.1 wResVec [1] rfl (by decide),
    (result_limit_by_path wEnvLive wOptsLex).2.2 (by decide)⟩

/- ===== C8 ===== -/

/-- C8: when an embedding is produced and the vector candidates filter down
to nothing, the store search returns none without ever running the lexical
query (flag false), and searchTrends proceeds straight to the live
fan-out. -/
theorem vector_empty_goes_live (env : Env) (options : SearchOptions) (v : List ℚ)
    (h1 : env.embed options.keyword = some v)
    (h2 : applyFiltersAndSort env.now
        ((vectorCandidates env.store v (options.limit.getD 100)).map rowToPostVec)
        (validatedOptions options) = []) :
    searchTrendsInDatabase env (validatedOptions options) = (none, false)
      ∧ searchTrends env options
        = (toSearchResult env.now options
            (applyFiltersAndSort env.now
              ((liveAll env (validatePlatforms options.platforms) options).map
                (withMomentum env.now))
              (validatedOptions options)), false) := by
  have hdb : searchTrendsInDatabase env (validatedOptions options) = (none, false) := by
    have hk : (validatedOptions options).keyword = options.keyword := rfl
    have hl : (validatedOptions options).limit = options.limit := rfl
    simp only [searchTrendsInDatabase, hk, hl, h1, h2]
    simp
  refine ⟨hdb, ?_⟩
  simp only [searchTrends, hdb]

/-- C8 witness: with an embedding provider that succeeds and an empty store,
the vector candidates filter to nothing and the search goes to the live
fan-out with the lexical flag false. -/
theorem vector_empty_goes_live_witness :
    searchTrendsInDatabase wEnvC8 (validatedOptions wOptsC8) = (none, false)
      ∧ searchTrends wEnvC8 wOptsC8
        = (toSearchResult wEnvC8.now wOptsC8
            (applyFiltersAndSort wEnvC8.now
              ((liveAll wEnvC8 (validatePlatforms wOptsC8.platforms) wOptsC8).map
                (withMomentum wEnvC8.now))
              (validatedOptions wOptsC8)), false) :=
  vector_empty_goes_live wEnvC8 wOptsC8 [1] rfl rfl

/- ===== C2 ===== -/

theorem mem_dedupByKeyGo (x : Post) :
    ∀ (l : List Post) (seen : List (Platform × Str)),
      x ∈ dedupByKeyGo seen l → postKey x ∉ seen := by
  intro l
  induction l with
  | nil => intro seen h; simp [dedupByKeyGo] at h
  | cons p ps ih =>
    intro seen h
    by_cases hp : postKey p ∈ seen
    · rw [dedupByKeyGo, if_pos hp] at h
      exact ih seen h
    · rw [dedupByKeyGo, if_neg hp] at h
      rcases List.mem_cons.mp h with rfl | hx
      · exact hp
      · intro hseen
        exact (ih _ hx) (List.mem_cons_of_mem _ hseen)

theorem pairwise_dedupByKeyGo :
    ∀ (l : List Post) (seen : List (Platform × Str)),
      (dedupByKeyGo seen l).Pairwise (fun a b => postKey a ≠ postKey b) := by
  intro l
  induction l with
  | nil => intro seen; simp [dedupByKeyGo]
  | cons p ps ih =>
    intro seen
    by_cases hp : postKey p ∈ seen
    · rw [dedupByKeyGo, if_pos hp]; exact ih seen
    · rw [dedupByKeyGo, if_neg hp]
      refine List.pairwise_cons.mpr ⟨?_, ih _⟩
      intro b hb heq
      exact (mem_dedupByKeyGo b ps _ hb) (by rw [← heq]; exact List.mem_cons_self _ _)

theorem checkPostExists_snoc (store : List StoredPost) (r : StoredPost)
    (pid : Str) (pf : Platform) :
    checkPostExists (store ++ [r]) pid pf
      = (checkPostExists store pid pf || (r.platformId == pid && r.platform == pf)) := by
  simp [checkPostExists, List.any_append]

theorem upsert_fresh (now : ℚ) (store : List StoredPost) (row : StoredPost)
    (h : checkPostExists store row.platformId row.platform = false) :
    upsertPost now store row = store ++ [row] := by
  simp [upsertPost, h]

theorem foldl_upsert_fresh (now : ℚ) :
    ∀ (rows store : List StoredPost),
      (∀ row ∈ rows, checkPostExists store row.platformId row.platform = false) →
      rows.Pairwise (fun a b => ¬(a.platformId = b.platformId ∧ a.platform = b.platform)) →
      rows.foldl (upsertPost now) store = store ++ rows := by
  intro rows
  induction rows with
  | nil => intro store _ _; simp
  | cons r rs ih =>
    intro store hfresh hpair
    have hr : checkPostExists store r.platformId r.platform = false :=
      hfresh r (List.mem_cons_self _ _)
    rw [List.foldl_cons, upsert_fresh now store r hr,
      ih (store ++ [r]) ?_ (List.pairwise_cons.mp hpair).2]
    · simp
    · intro row hrow
      have h1 : checkPostExists store row.platformId row.platform = false :=
        hfresh row (List.mem_cons_of_mem _ hrow)
      have h2 : ¬(r.platformId = row.platformId ∧ r.platform = row.platform) :=
        (List.pairwise_cons.mp hpair).1 row hrow
      rw [checkPostExists_snoc, h1, Bool.false_or]
      rw [Bool.and_eq_false_iff]
      rcases not_and_or.mp h2 with h3 | h3
      · exact Or.inl (beq_eq_false_iff_ne.mpr h3)
      · exact Or.inr (beq_eq_false_iff_ne.mpr h3)

theorem upsertRows_fresh (env : Env) (store : List StoredPost) (result : SearchResult) :
    ∀ row ∈ upsertRows env store result,
      checkPostExists store row.platformId row.platform = false := by
  intro row hrow
  rcases List.mem_map.mp hrow with ⟨item, hitem, rfl⟩
  rcases List.mem_map.mp hitem with ⟨pc, hpc, rfl⟩
  have h := (List.mem_filter.mp hpc).2
  rw [Bool.not_eq_eq_eq_not, Bool.not_true] at h
  exact h

theorem pairwise_upsertRows (env : Env) (store : List StoredPost) (result : SearchResult) :
    (upsertRows env store result).Pairwise
      (fun a b => ¬(a.platformId = b.platformId ∧ a.platform = b.platform)) := by
  unfold upsertRows newItems
  rw [List.pairwise_map, List.pairwise_map]
  have base := pairwise_dedupByKeyGo result.results []
  have step1 : ((sessionDedup result.results).map (pcOf env.now)).Pairwise
      (fun a b => ¬(a.platformId = b.platformId ∧ a.platform = b.platform)) := by
    rw [List.pairwise_map]
    refine base.imp ?_
    intro a b hk hc
    apply hk
    unfold postKey
    rw [Prod.mk.injEq]
    exact ⟨hc.2, hc.1⟩
  exact (step1.sublist (List.filter_sublist _)).imp (fun h => h)

/-- C2 counterexample: an item whose natural key already exists in the store
is skipped entirely by the background persistence: the stored row keeps its
old metrics and momentum score instead of being updated to the latest
values. -/
theorem upsert_skip_counterexample :
    saveSearchToDatabase c2Env c2Opts c2Result [c2Row] = [c2Row]
      ∧ c2Row.metrics.likes = some 5
      ∧ c2Item.metrics.likes = some 7
      ∧ c2Row.momentumScore = 1
      ∧ c2Item.momentumScore = some 9 :=
  ⟨by decide, rfl, rfl, rfl, rfl⟩

/-- C2 (amended): items whose key exists at existence-check time are skipped
before any write, so the background persistence only appends rows with fresh
keys and leaves every pre-existing row entirely unchanged, volatile fields
included; only the conflict clause of the upsert itself, reached when the
check misses, updates exactly metrics, momentumScore, embedding and the
updated-at marker while keeping author, content, title and publishedAt. -/
theorem save_skips_existing (env : Env) (opts : SearchOptions) (result : SearchResult)
    (store : List StoredPost) :
    saveSearchToDatabase env opts result store = store ++ upsertRows env store result
      ∧ (∀ row ∈ upsertRows env store result,
        checkPostExists store row.platformId row.platform = false)
      ∧ (∀ (now : ℚ) (store2 : List StoredPost) (row : StoredPost),
        checkPostExists store2 row.platformId row.platform = true →
        upsertPost now store2 row
          = store2.map (fun r => if keyMatches row r then conflictUpdate now row r else r))
      ∧ (∀ (now : ℚ) (row r : StoredPost),
        (conflictUpdate now row r).author = r.author
          ∧ (conflictUpdate now row r).content = r.content
          ∧ (conflictUpdate now row r).title = r.title
          ∧ (conflictUpdate now row r).publishedAt = r.publishedAt
          ∧ (conflictUpdate now row r).metrics = row.metrics
          ∧ (conflictUpdate now row r).momentumScore = row.momentumScore
          ∧ (conflictUpdate now row r).embedding = row.embedding
          ∧ (conflictUpdate now row r).updatedAt = now) := by
  refine ⟨?_, upsertRows_fresh env store result, ?_, ?_⟩
  · exact foldl_upsert_fresh env.now (upsertRows env store result) store
      (upsertRows_fresh env store result) (pairwise_upsertRows env store result)
  · intro now store2 row h
    simp [upsertPost, h]
  · intro now row r
    exact ⟨rfl, rfl, rfl, rfl, rfl, rfl, rfl, rfl⟩

/-- C2 witness: the append form of the persistence at a concrete store, a
conflict update at a store containing the key, and the field behavior of the
conflict clause. -/
theorem save_skips_existing_witness :
    saveSearchToDatabase c2Env c2Opts c2Result [c2Row]
        = [c2Row] ++ upsertRows c2Env [c2Row] c2Result
      ∧ upsertPost 7 [c2Row] c2Row
        = [c2Row].map (fun r => if keyMatches c2Row r then conflictUpdate 7 c2Row r else r)
      ∧ (conflictUpdate 7 c2Row c2FreshRow).author = c2FreshRow.author :=
  ⟨(save_skips_existing c2Env c2Opts c2Result [c2Row]).1,
    (save_skips_existing c2Env c2Opts c2Result [c2Row]).2.2.1 7 [c2Row] c2Row (by decide),
    ((save_skips_existing c2Env c2Opts c2Result [c2Row]).2.2.2 7 c2Row c2FreshRow).1⟩

/- ===== C10 ===== -/

theorem take_marker_append (t : Str) (n : Nat) (h : n ≤ t.length) :
    (t.take n ++ "...".data).take n = t.take n := by
  apply List.take_left'
  rw [List.length_take]
  exact Nat.min_eq_left h

theorem truncateText_idem (t : Option Str) (n : Nat) :
    truncateText (truncateText t n) n = truncateText t n := by
  rcases t with _ | t
  · rfl
  · by_cases h1 : t.isEmpty = true
    · simp [truncateText, h1]
    · by_cases h2 : t.length ≤ n
      · simp [truncateText, h1, h2]
      · have hlen : (t.take n ++ "...".data).length = n + 3 := by
          rw [List.length_append, List.length_take]
          have : min n t.length = n := Nat.min_eq_left (le_of_lt (lt_of_not_le h2))
          rw [this]
          rfl
        have hne : (t.take n ++ "...".data).isEmpty = false := by
          rw [List.isEmpty_eq_false_iff_exists_mem]
          exact ⟨'.', by simp⟩
        have hgt : ¬ (t.take n ++ "...".data).length ≤ n := by
          rw [hlen]; omega
        simp only [truncateText, h1, h2, if_neg h1, if_neg h2, if_false]
        simp only [hne, hgt, if_neg, Bool.false_eq_true, if_false]
        rw [take_marker_append t n (le_of_lt (lt_of_not_le h2))]

theorem normContent_idem (c : Str) :
    (truncateText (some ((truncateText (some c) 600).getD [])) 600).getD []
      = (truncateText (some c) 600).getD [] := by
  rcases heq : truncateText (some c) 600 with _ | t
  · simp [truncateText]
  · have hidem := truncateText_idem (some c) 600
    rw [heq] at hidem
    simp only [Option.getD_some]
    rw [hidem]
    rfl

/-- C10 counterexample: a post whose content and title are both within the
length bounds is not always returned unchanged: an empty-string title is
normalized away to an absent title. -/
theorem normalize_changes_empty_title :
    c10Post.content.length ≤ 600
      ∧ c10Post.title = some []
      ∧ (c10Post.title.getD []).length ≤ 200
      ∧ normalizeAndTruncatePost c10Post ≠ c10Post := by
  exact ⟨by decide, rfl, by decide, by decide⟩

/-- C10 (amended): normalizeAndTruncatePost is idempotent, caps content at
600 characters and title at 200 characters plus a trailing marker, returns
posts already within the bounds unchanged except that an empty title becomes
an absent title, and toSearchResult applies it to every returned post. -/
theorem normalize_idem_spec (p : Post) :
    normalizeAndTruncatePost (normalizeAndTruncatePost p) = normalizeAndTruncatePost p
      ∧ (p.content.length ≤ 600 → (normalizeAndTruncatePost p).content = p.content)
      ∧ (600 < p.content.length →
        (normalizeAndTruncatePost p).content = p.content.take 600 ++ "...".data)
      ∧ (∀ t, p.title = some t → 200 < t.length →
        (normalizeAndTruncatePost p).title = some (t.take 200 ++ "...".data))
      ∧ (∀ t, p.title = some t → t ≠ [] → t.length ≤ 200 →
        (normalizeAndTruncatePost p).title = some t)
      ∧ (p.content.length ≤ 600 →
        (p.title = none ∨ ∃ t, p.title = some t ∧ t ≠ [] ∧ t.length ≤ 200) →
        normalizeAndTruncatePost p = p)
      ∧ (∀ (now : ℚ) (opts : SearchOptions) (posts : List Post),
        (toSearchResult now opts posts).results = posts.map normalizeAndTruncatePost) := by
  refine ⟨?_, ?_, ?_, ?_, ?_, ?_, ?_⟩
  · show ({ normalizeAndTruncatePost p with
        content := (truncateText (some (normalizeAndTruncatePost p).content) 600).getD []
        title := truncateText (normalizeAndTruncatePost p).title 200 } : Post)
      = normalizeAndTruncatePost p
    have hc : (truncateText (some (normalizeAndTruncatePost p).content) 600).getD []
        = (normalizeAndTruncatePost p).content := by
      show (truncateText (some ((truncateText (some p.content) 600).getD [])) 600).getD []
          = (truncateText (some p.content) 600).getD []
      exact normContent_idem p.content
    have ht : truncateText (normalizeAndTruncatePost p).title 200
        = (normalizeAndTruncatePost p).title := by
      show truncateText (truncateText p.title 200) 200 = truncateText p.title 200
      exact truncateText_idem p.title 200
    rw [hc, ht]
  · intro h
    show (truncateText (some p.content) 600).getD [] = p.content
    by_cases h1 : p.content.isEmpty = true
    · rw [List.isEmpty_iff] at h1
      simp [truncateText, h1]
    · simp [truncateText, h1, h]
  · intro h
    show (truncateText (some p.content) 600).getD [] = p.content.take 600 ++ "...".data
    have h1 : p.content.isEmpty = false := by
      rcases hh : p.content.isEmpty with _ | _
      · rfl
      · rw [List.isEmpty_iff] at hh
        rw [hh] at h
        simp at h
    simp [truncateText, h1, not_le.mpr h]
  · intro t hteq h
    show truncateText p.title 200 = some (t.take 200 ++ "...".data)
    rw [hteq]
    have h1 : t.isEmpty = false := by
      rw [List.isEmpty_eq_false_iff_exists_mem]
      rcases t with _ | ⟨c, cs⟩
      · simp at h
      · exact ⟨c, by simp⟩
    simp [truncateText, h1, not_le.mpr h]
  · intro t hteq hne hle
    show truncateText p.title 200 = some t
    rw [hteq]
    have h1 : t.isEmpty = false := by
      rw [List.isEmpty_eq_false_iff_exists_mem]
      rcases t with _ | ⟨c, cs⟩
      · exact absurd rfl hne
      · exact ⟨c, by simp⟩
    simp [truncateText, h1, hle]
  · intro hc ht
    have hcontent : (truncateText (some p.content) 600).getD [] = p.content := by
      by_cases h1 : p.content.isEmpty = true
      · rw [List.isEmpty_iff] at h1
        simp [truncateText, h1]
      · simp [truncateText, h1, hc]
    have htitle : truncateText p.title 200 = p.title := by
      rcases ht with hnone | ⟨t, hteq, hne, hle⟩
      · rw [hnone]; rfl
      · rw [hteq]
        have h1 : t.isEmpty = false := by
          rw [List.isEmpty_eq_false_iff_exists_mem]
          rcases t with _ | ⟨c, cs⟩
          · exact absurd rfl hne
          · exact ⟨c, by simp⟩
        simp [truncateText, h1, hle]
    show ({ p with
        content := (truncateText (some p.content) 600).getD []
        title := truncateText p.title 200 } : Post) = p
    rw [hcontent, htitle]
  · intro now opts posts
    simp [toSearchResult]

/-- C10 witness: idempotence, the caps, the unchanged case and the
toSearchResult normalization at concrete posts, discharging every
hypothesis. -/
theorem normalize_idem_spec_witness :
    normalizeAndTruncatePost (normalizeAndTruncatePost w10Post) = normalizeAndTruncatePost w10Post
      ∧ (normalizeAndTruncatePost w10Post).content = w10Post.content
      ∧ (normalizeAndTruncatePost w10LongPost).content
          = w10LongPost.content.take 600 ++ "...".data
      ∧ (normalizeAndTruncatePost w10LongPost).title
          = some ((List.replicate 201 'b').take 200 ++ "...".data)
      ∧ (normalizeAndTruncatePost w10Post).title = some "t".data
      ∧ normalizeAndTruncatePost w10Post = w10Post
      ∧ (toSearchResult 0 wOptsLex [w10Post]).results
          = [w10Post].map normalizeAndTruncatePost :=
  ⟨(normalize_idem_spec w10Post).1,
    (normalize_idem_spec w10Post).2.1 (by decide),
    (normalize_idem_spec w10LongPost).2.2.1
      (by rw [show w10LongPost.content = List.replicate 601 'a' from rfl,
        List.length_replicate]; omega),
    (normalize_idem_spec w10LongPost).2.2.2.1 (List.replicate 201 'b') rfl
      (by rw [List.length_replicate]; omega),
    (normalize_idem_spec w10Post).2.2.2.2.1 "t".data rfl (by decide) (by decide),
    (normalize_idem_spec w10Post).2.2.2.2.2.1 (by decide)
      (Or.inr ⟨"t".data, rfl, by decide, by decide⟩),
    (normalize_idem_spec w10Post).2.2.2.2.2.2 0 wOptsLex [w10Post]⟩

/-- C9 witness: the mock-mode equality and the per-item guarantees applied to
the first mock tweet under an all timeframe. -/
theorem xService_mock_mode_witness :
    xSearchTrends { apiKey := none, clientId := none, clientSecret := none, userAgent := none }
        none 0 "k".data wC9Opts = getMockData 0 "k".data wC9Opts
      ∧ (mockTweet1 0 "k".data).platform = Platform.twitter
      ∧ mockTimeframeKeeps 0 wC9Opts.timeframe (mockTweet1 0 "k".data) = true := by
  have hall : getMockData 0 "k".data wC9Opts = mockTweets 0 "k".data := by
    rw [getMockData]
    have hkeep : ∀ a ∈ mockTweets 0 "k".data,
        mockTimeframeKeeps 0 wC9Opts.timeframe a = true := fun a _ => rfl
    rw [List.filter_eq_self.mpr hkeep]
    apply List.take_of_length_le
    simp [mockTweets, wC9Opts, mockLimit]
  have hmem : mockTweet1 0 "k".data ∈ getMockData 0 "k".data wC9Opts := by
    rw [hall]
    simp [mockTweets]
  have h := xService_mock_mode none none none none 0 "k".data wC9Opts
  exact ⟨h.1, (h.2.2.2.2 (mockTweet1 0 "k".data) hmem).1,
    (h.2.2.2.2 (mockTweet1 0 "k".data) hmem).2⟩
